import Mathlib

/-!
Shallow embedding of `src/mgos_dht.c` (mongoose-os DHT sensor driver).

Modelling conventions:
* C `uint8_t` data bytes are `Nat` kept below 256 by the explicit `% 256`
  that the 8-bit truncation of `data[j] <<= 1` performs.
* C `double` wall-clock times (`mg_time()`, seconds) are `ℤ`: every claim
  about timing is a comparison or linear arithmetic over times, none depends
  on sub-second resolution, and the theorems quantify over all integer times.
  Sensor readings (C `float`) are `ℚ`, where `0.1` is exactly `1/10`.
* The GPIO bus is an oracle: `ReadEnv.waits k` is the value returned by the
  k-th call to `dht_wait` during one execution of `dht_read`
  (call 0: `dht_wait(pin, 1, 90)`, call 1: `dht_wait(pin, 0, 90)`,
  calls 2..81: the 80 capture waits with timeout 500).  `dht_wait` itself
  is modelled separately over a pin-level trace.
* `mgos_ints_disable` / `mgos_ints_enable` are recorded in an event trace
  (`true` = disable, `false` = enable) in program order, so that the
  critical-section discipline is a provable property of each path.
* GPIO mode/pull configuration and the sleeps (`mgos_msleep`, `mgos_usleep`)
  have no modelled effect; they appear as comments at their program points.
-/

/-- Sensor variants. The enum `dht_type` is declared in `mgos_dht.h`, which is
not part of the sources; its constructors are modelled from the spec
("standard" and "short-initiation" timing profiles) and from the two values
the C file uses, `DHT11` and `ITEAD_SI7021`. -/
inductive DhtType where
  | DHT11
  | DHT21
  | DHT22
  | ITEAD_SI7021
deriving DecidableEq, Repr

/-- Statistics record. The struct `mgos_dht_stats` is declared in
`mgos_dht.h` (not in the sources); its fields are modelled from their uses in
`mgos_dht.c` and the spec's description (attempt count, success count,
cache-hit count, cumulative microseconds of successful reads, timestamp of the
last read attempt). Counters are `Nat`; times are `ℤ` (C `double`). -/
structure MgosDhtStats where
  read : Nat
  read_success : Nat
  read_success_cached : Nat
  read_success_usecs : Int
  last_read_time : Int
deriving DecidableEq, Repr

/-- The sensor handle `struct mgos_dht`. The 5-byte buffer `uint8_t data[5]`
is a function `Nat → Nat`; only indices 0..4 are ever read or written, which
mirrors the C indexing `data[j]` with `j = i / 8 < 5`. -/
structure MgosDht where
  pin : Int
  type : DhtType
  data : Nat → Nat
  last_result : Bool
  stats : MgosDhtStats

/-- Environment of one `dht_read` call: the two `mg_time()` samples and the
oracle of `dht_wait` results (see the header comment). -/
structure ReadEnv where
  start : Int
  finish : Int
  waits : Nat → Nat

/-- Result of one `dht_read` call: the returned boolean, the updated handle,
and the trace of interrupt operations executed on this path
(`true` = `mgos_ints_disable()`, `false` = `mgos_ints_enable()`). -/
structure ReadResult where
  ret : Bool
  dht : MgosDht
  intsTrace : List Bool

/-- Loop body counter of `dht_wait`: at poll `t` the pin is read; if it equals
`lvl` the function returns `t`; otherwise if `t == usecs` it returns 0;
otherwise it sleeps 1µs and retries with `t+1`. `fuel` is `usecs + 1 - t`,
so the `t = usecs` exit always fires before fuel runs out. -/
def dht_waitAux (read : Nat → Bool) (lvl : Bool) (usecs : Nat) : Nat → Nat → Nat
  | 0, _ => 0
  | fuel + 1, t =>
    if read t = lvl then t
    else if t = usecs then 0
    else dht_waitAux read lvl usecs fuel (t + 1)

/-- `dht_wait(pin, lvl, usecs)`: busy-poll the pin once per microsecond
(`read t` = level observed at poll `t`), returning the elapsed count when the
pin first reads `lvl`, and 0 on timeout. -/
def dht_wait (read : Nat → Bool) (lvl : Bool) (usecs : Nat) : Nat :=
  dht_waitAux read lvl usecs (usecs + 1) 0

/-- Decode loop of `dht_read`, bits `i .. i+n-1` remaining (the C loop is
`decodeFrom cycles data 0 40`). For each bit: `usec_low = cycles[2i]`,
`usec_high = cycles[2i+1]`; a zero duration fails the whole read; otherwise
shift byte `i/8` left (8-bit truncation) and OR in 1 when high > low. Returns
the (possibly partially updated) buffer and the success flag. -/
def decodeFrom (cycles : Nat → Nat) (data : Nat → Nat) (i n : Nat) :
    (Nat → Nat) × Bool :=
  match n with
  | 0 => (data, true)
  | n + 1 =>
    let usec_low := cycles (2 * i)
    let usec_high := cycles (2 * i + 1)
    if usec_low = 0 ∨ usec_high = 0 then (data, false)
    else
      let j := i / 8
      let d := data j * 2 % 256
      let d := if usec_high > usec_low then d ||| 1 else d
      decodeFrom cycles (Function.update data j d) (i + 1) n

/-- Decode step on a zeroed buffer, as `dht_read` performs it after the
`memset(dht->data, 0, 5)`. -/
def decodeBytes (cycles : Nat → Nat) : (Nat → Nat) × Bool :=
  decodeFrom cycles (fun _ => 0) 0 40

/-- `MGOS_DHT_READ_DELAY`, seconds. -/
def MGOS_DHT_READ_DELAY : Int := 2

/-- Fresh (non-cached) part of `dht_read`, entered with the attempt counter
already incremented: clear the result flag and the data buffer, perform the
start signal and handshake, capture and decode, validate the checksum. -/
def dht_read_fresh (dht1 : MgosDht) (env : ReadEnv) : ReadResult :=
  let dht := { dht1 with
    stats := { dht1.stats with last_read_time := env.start },
    last_result := false,
    data := fun _ => 0 }
  -- gpio set_mode INPUT, set_pull UP, msleep(10); start signal: set_mode
  -- OUTPUT, write 0, then usleep(500) for ITEAD_SI7021 else msleep(18)
  -- mgos_ints_disable(); set_mode INPUT, set_pull UP, usleep(40)
  if env.waits 0 = 0 ∨ env.waits 1 = 0 then
    -- mgos_ints_enable(); return false
    { ret := false, dht := dht, intsTrace := [true, false] }
  else
    let cycles : Nat → Nat := fun k => env.waits (2 + k)
    -- capture loop fills cycles[0..79]; then mgos_ints_enable()
    let dec := decodeFrom cycles dht.data 0 40
    let dht := { dht with data := dec.1 }
    if dec.2 = false then
      { ret := false, dht := dht, intsTrace := [true, false] }
    else if dht.data 4 = (dht.data 0 + dht.data 1 + dht.data 2 + dht.data 3) % 256 then
      let dht := { dht with
        last_result := true,
        stats := { dht.stats with
          read_success := dht.stats.read_success + 1,
          read_success_usecs :=
            dht.stats.read_success_usecs + 1000000 * (env.finish - env.start),
          last_read_time := env.start } }
      { ret := dht.last_result, dht := dht, intsTrace := [true, false] }
    else
      { ret := dht.last_result, dht := dht, intsTrace := [true, false] }

/-- `dht_read`: increment the attempt counter; if less than
`MGOS_DHT_READ_DELAY` elapsed since the last attempt, bump the cache-hit
counter and return the previous result; otherwise do a fresh read. -/
def dht_read (dht0 : MgosDht) (env : ReadEnv) : ReadResult :=
  let dht := { dht0 with stats := { dht0.stats with read := dht0.stats.read + 1 } }
  if env.start - dht.stats.last_read_time < MGOS_DHT_READ_DELAY then
    { ret := dht.last_result,
      dht := { dht with stats := { dht.stats with
        read_success_cached := dht.stats.read_success_cached + 1 } },
      intsTrace := [] }
  else
    dht_read_fresh dht env

/-- `mgos_dht_create`: zero-initialized handle (`calloc`) with pin and type
set. The GPIO-configuration-failure branch (returning NULL) is not modelled;
claims quantify over successfully created handles. -/
def mgos_dht_create (pin : Int) (ty : DhtType) : MgosDht :=
  { pin := pin, type := ty, data := fun _ => 0, last_result := false,
    stats := { read := 0, read_success := 0, read_success_cached := 0,
               read_success_usecs := 0, last_read_time := 0 } }

/-- Conversion block of `mgos_dht_get_temp`: `res` starts as the NAN sentinel
(`none`) and is computed from `data[2]`/`data[3]` per variant when the read
returned true. -/
def dht_temp_val (r : ReadResult) : Option ℚ :=
  if r.ret then
    if r.dht.type = DhtType.DHT11 then
      some ((r.dht.data 2 : ℚ))
    else
      let res : ℚ := ((r.dht.data 2 &&& 0x7F : Nat) : ℚ)
      let res := res * 256
      let res := res + ((r.dht.data 3 : Nat) : ℚ)
      let res := res * (1 / 10)
      let res := if r.dht.data 2 &&& 0x80 ≠ 0 then res * (-1) else res
      some res
  else none

/-- `mgos_dht_get_temp`: trigger a (possibly cached) read; on success convert
`data[2]`/`data[3]` per variant, on failure return the NAN sentinel (`none`).
Returns the value together with the post-read handle state. -/
def mgos_dht_get_temp (dht : MgosDht) (env : ReadEnv) : Option ℚ × MgosDht :=
  let r := dht_read dht env
  (dht_temp_val r, r.dht)

/-- Conversion block of `mgos_dht_get_humidity`, from `data[0]`/`data[1]`. -/
def dht_humidity_val (r : ReadResult) : Option ℚ :=
  if r.ret then
    if r.dht.type = DhtType.DHT11 then
      some ((r.dht.data 0 : ℚ))
    else
      let res : ℚ := ((r.dht.data 0 : Nat) : ℚ)
      let res := res * 256
      let res := res + ((r.dht.data 1 : Nat) : ℚ)
      let res := res * (1 / 10)
      some res
  else none

/-- `mgos_dht_get_humidity`: same contract as `mgos_dht_get_temp`, converting
`data[0]`/`data[1]`. -/
def mgos_dht_get_humidity (dht : MgosDht) (env : ReadEnv) : Option ℚ × MgosDht :=
  let r := dht_read dht env
  (dht_humidity_val r, r.dht)

/-- Rate-limit condition of `dht_read` on the state before the call (the
attempt-counter increment does not touch `last_read_time`). -/
def isCacheHit (d : MgosDht) (e : ReadEnv) : Prop :=
  e.start - d.stats.last_read_time < MGOS_DHT_READ_DELAY

instance (d : MgosDht) (e : ReadEnv) : Decidable (isCacheHit d e) :=
  inferInstanceAs (Decidable (_ < _))

/-- A call is a fresh validated success when it is not rate-limited and the
read returns true. -/
def isFreshSuccess (d : MgosDht) (e : ReadEnv) : Prop :=
  ¬ isCacheHit d e ∧ (dht_read d e).ret = true

instance (d : MgosDht) (e : ReadEnv) : Decidable (isFreshSuccess d e) :=
  inferInstanceAs (Decidable (_ ∧ _))

/-- Run a sequence of `dht_read` calls, threading the handle state. -/
def runReads (d : MgosDht) : List ReadEnv → MgosDht
  | [] => d
  | e :: es => runReads (dht_read d e).dht es

/-- Number of rate-limited cache hits along a run. -/
def countCacheHits (d : MgosDht) : List ReadEnv → Nat
  | [] => 0
  | e :: es => (if isCacheHit d e then 1 else 0) + countCacheHits (dht_read d e).dht es

/-- Number of fresh validated successes along a run. -/
def countFreshSuccess (d : MgosDht) : List ReadEnv → Nat
  | [] => 0
  | e :: es => (if isFreshSuccess d e then 1 else 0) + countFreshSuccess (dht_read d e).dht es

/-- Nesting depth of interrupt-disable after executing a trace of interrupt
operations: `true` = disable (+1), `false` = enable (-1). -/
def intsDepth (t : List Bool) : Int :=
  t.foldl (fun d op => if op then d + 1 else d - 1) 0

/-- Decoded value of bit-slot `i`: 1 iff `cycles[2i+1] > cycles[2i]`. -/
def bitOf (cycles : Nat → Nat) (i : Nat) : Nat :=
  if cycles (2 * i + 1) > cycles (2 * i) then 1 else 0

/-- One decode-loop update of the byte holding bit-slot `i`. -/
def stepBit (cycles : Nat → Nat) (v i : Nat) : Nat :=
  v * 2 % 256 ||| bitOf cycles i

/-- Intended final value of byte `j` when the decode loop runs from bit-slot
`i` to 39 starting from buffer `data`: fold the remaining updates of byte `j`
(slots `max i (8j) .. 8j+7`) over its current value. -/
def byteFrom (cycles : Nat → Nat) (data : Nat → Nat) (i j : Nat) : Nat :=
  List.foldl (stepBit cycles) (data j)
    (List.range' (max i (8 * j)) (8 * (j + 1) - max i (8 * j)))

/-! Helper lemmas about `dht_wait`. -/

lemma dht_waitAux_le (read : Nat → Bool) (lvl : Bool) (usecs : Nat) :
    ∀ fuel t, t + fuel = usecs + 1 → dht_waitAux read lvl usecs fuel t ≤ usecs := by
  intro fuel
  induction fuel with
  | zero => intro t ht; simp [dht_waitAux]
  | succ n ih =>
    intro t ht
    simp only [dht_waitAux]
    split
    · omega
    · split
      · omega
      · exact ih (t + 1) (by omega)

lemma dht_wait_le (read : Nat → Bool) (lvl : Bool) (usecs : Nat) :
    dht_wait read lvl usecs ≤ usecs :=
  dht_waitAux_le read lvl usecs (usecs + 1) 0 (by omega)

lemma dht_wait_entry (read : Nat → Bool) (lvl : Bool) (usecs : Nat)
    (h : read 0 = lvl) : dht_wait read lvl usecs = 0 := by
  unfold dht_wait dht_waitAux
  simp [h]

lemma dht_waitAux_timeout (read : Nat → Bool) (lvl : Bool) (usecs : Nat)
    (h : ∀ s, s ≤ usecs → read s ≠ lvl) :
    ∀ fuel t, t + fuel = usecs + 1 → dht_waitAux read lvl usecs fuel t = 0 := by
  intro fuel
  induction fuel with
  | zero => intro t ht; simp [dht_waitAux]
  | succ n ih =>
    intro t ht
    simp only [dht_waitAux]
    rw [if_neg (h t (by omega))]
    split
    · rfl
    · exact ih (t + 1) (by omega)

lemma dht_wait_timeout (read : Nat → Bool) (lvl : Bool) (usecs : Nat)
    (h : ∀ s, s ≤ usecs → read s ≠ lvl) : dht_wait read lvl usecs = 0 :=
  dht_waitAux_timeout read lvl usecs h (usecs + 1) 0 (by omega)

/-! Helper lemmas about the decode loop. -/

lemma step_eq_stepBit (cycles : Nat → Nat) (v i : Nat) :
    (if cycles (2 * i + 1) > cycles (2 * i) then v * 2 % 256 ||| 1 else v * 2 % 256)
      = stepBit cycles v i := by
  unfold stepBit bitOf
  split
  · rfl
  · simp

lemma byteFrom_step (cycles : Nat → Nat) (data : Nat → Nat) (i : Nat)
    (j : Nat) (hj : j < 5) :
    byteFrom cycles (Function.update data (i / 8) (stepBit cycles (data (i / 8)) i)) (i + 1) j
      = byteFrom cycles data i j := by
  unfold byteFrom
  by_cases hje : j = i / 8
  · subst hje
    have hmax1 : max i (8 * (i / 8)) = i := by omega
    have hmax2 : max (i + 1) (8 * (i / 8)) = i + 1 := by omega
    rw [hmax1, hmax2]
    have hc : 8 * (i / 8 + 1) - i = (8 * (i / 8 + 1) - (i + 1)) + 1 := by omega
    rw [hc, List.range'_succ]
    simp [Function.update_same]
  · rw [Function.update_noteq hje]
    rcases Nat.lt_or_ge j (i / 8) with hlt | hge
    · have hc1 : 8 * (j + 1) - max i (8 * j) = 0 := by omega
      have hc2 : 8 * (j + 1) - max (i + 1) (8 * j) = 0 := by omega
      rw [hc1, hc2]
      rfl
    · have hgt : i / 8 < j := by omega
      have hm1 : max i (8 * j) = 8 * j := by omega
      have hm2 : max (i + 1) (8 * j) = 8 * j := by omega
      rw [hm1, hm2]

lemma decodeFrom_byteFrom (cycles : Nat → Nat) (hnz : ∀ k, k < 80 → cycles k ≠ 0) :
    ∀ n i data, i + n = 40 →
      (decodeFrom cycles data i n).2 = true ∧
      ∀ j, j < 5 → (decodeFrom cycles data i n).1 j = byteFrom cycles data i j := by
  intro n
  induction n with
  | zero =>
    intro i data hi
    refine ⟨rfl, fun j hj => ?_⟩
    unfold byteFrom
    have hc : 8 * (j + 1) - max i (8 * j) = 0 := by omega
    rw [hc]
    rfl
  | succ n ih =>
    intro i data hi
    have h1 : cycles (2 * i) ≠ 0 := hnz _ (by omega)
    have h2 : cycles (2 * i + 1) ≠ 0 := hnz _ (by omega)
    rw [decodeFrom]
    simp only [h1, h2, or_self, if_neg, false_or, if_false]
    rw [step_eq_stepBit]
    obtain ⟨hflag, hdata⟩ := ih (i + 1)
      (Function.update data (i / 8) (stepBit cycles (data (i / 8)) i)) (by omega)
    refine ⟨hflag, fun j hj => ?_⟩
    rw [hdata j hj, byteFrom_step cycles data i j hj]

lemma bitOf_le_one (cycles : Nat → Nat) (i : Nat) : bitOf cycles i ≤ 1 := by
  unfold bitOf
  split <;> omega

lemma two_mul_lor_bit : ∀ x, x < 128 → ∀ b, b ≤ 1 → (2 * x) ||| b = 2 * x + b := by
  decide

lemma stepBit_arith (cycles : Nat → Nat) (v i : Nat) :
    stepBit cycles v i = 2 * (v % 128) + bitOf cycles i := by
  unfold stepBit
  have hm : v * 2 % 256 = 2 * (v % 128) :=  by
    rw [Nat.mul_comm, show (256 : Nat) = 2 * 128 from rfl, Nat.mul_mod_mul_left]
  rw [hm, two_mul_lor_bit (v % 128) (by omega) _ (bitOf_le_one cycles i)]

lemma foldl_stepBit_eight (cycles : Nat → Nat) (k : Nat) :
    List.foldl (stepBit cycles) 0 (List.range' k 8) =
      128 * bitOf cycles k + 64 * bitOf cycles (k + 1) + 32 * bitOf cycles (k + 2) +
      16 * bitOf cycles (k + 3) + 8 * bitOf cycles (k + 4) + 4 * bitOf cycles (k + 5) +
      2 * bitOf cycles (k + 6) + bitOf cycles (k + 7) := by
  have e : List.range' k 8 = [k, k + 1, k + 2, k + 3, k + 4, k + 5, k + 6, k + 7] := rfl
  rw [e]
  simp only [List.foldl, stepBit_arith]
  have h0 := bitOf_le_one cycles k
  have h1 := bitOf_le_one cycles (k + 1)
  have h2 := bitOf_le_one cycles (k + 2)
  have h3 := bitOf_le_one cycles (k + 3)
  have h4 := bitOf_le_one cycles (k + 4)
  have h5 := bitOf_le_one cycles (k + 5)
  have h6 := bitOf_le_one cycles (k + 6)
  have h7 := bitOf_le_one cycles (k + 7)
  omega

/-- Decoded byte `j` of a full successful decode: the 8 bits of slots
`8j .. 8j+7`, most significant first. -/
lemma decodeBytes_byte (cycles : Nat → Nat) (hnz : ∀ k, k < 80 → cycles k ≠ 0)
    (j : Nat) (hj : j < 5) :
    (decodeBytes cycles).1 j =
      128 * bitOf cycles (8 * j) + 64 * bitOf cycles (8 * j + 1) +
      32 * bitOf cycles (8 * j + 2) + 16 * bitOf cycles (8 * j + 3) +
      8 * bitOf cycles (8 * j + 4) + 4 * bitOf cycles (8 * j + 5) +
      2 * bitOf cycles (8 * j + 6) + bitOf cycles (8 * j + 7) := by
  obtain ⟨-, hdata⟩ := decodeFrom_byteFrom cycles hnz 40 0 (fun _ => 0) rfl
  rw [show decodeBytes cycles = decodeFrom cycles (fun _ => 0) 0 40 from rfl]
  rw [hdata j hj]
  unfold byteFrom
  have hm : max 0 (8 * j) = 8 * j := by omega
  have hc : 8 * (j + 1) - max 0 (8 * j) = 8 := by omega
  rw [hc, hm]
  exact foldl_stepBit_eight cycles (8 * j)

lemma decodeBytes_flag (cycles : Nat → Nat) (hnz : ∀ k, k < 80 → cycles k ≠ 0) :
    (decodeBytes cycles).2 = true :=
  (decodeFrom_byteFrom cycles hnz 40 0 (fun _ => 0) rfl).1

/-- A zero duration anywhere in the remaining slots makes the decode loop
report failure. -/
lemma decodeFrom_zero_fails (cycles : Nat → Nat) :
    ∀ n i data k, 2 * i ≤ k → k < 2 * i + 2 * n → cycles k = 0 →
      (decodeFrom cycles data i n).2 = false := by
  intro n
  induction n with
  | zero => intro i data k hk1 hk2 _; omega
  | succ n ih =>
    intro i data k hk1 hk2 hk0
    rw [decodeFrom]
    by_cases hz : cycles (2 * i) = 0 ∨ cycles (2 * i + 1) = 0
    · simp [hz]
    · simp only [hz, if_false]
      have hne1 : cycles (2 * i) ≠ 0 := fun h => hz (Or.inl h)
      have hne2 : cycles (2 * i + 1) ≠ 0 := fun h => hz (Or.inr h)
      have hk : 2 * (i + 1) ≤ k := by
        by_contra hcon
        have hor : k = 2 * i ∨ k = 2 * i + 1 := by omega
        rcases hor with h | h
        · exact hne1 (by rw [← h]; exact hk0)
        · exact hne2 (by rw [← h]; exact hk0)
      exact ih (i + 1) _ k hk (by omega) hk0

/-! Helper lemmas about the two top-level paths of `dht_read`. -/

lemma dht_read_cached (d : MgosDht) (e : ReadEnv) (h : isCacheHit d e) :
    dht_read d e = { ret := d.last_result,
                     dht := { d with stats := { d.stats with
                       read := d.stats.read + 1,
                       read_success_cached := d.stats.read_success_cached + 1 } },
                     intsTrace := [] } := by
  simp only [dht_read]
  split
  · rfl
  · next hneg => exact absurd h hneg

lemma dht_read_not_cached (d : MgosDht) (e : ReadEnv) (h : ¬ isCacheHit d e) :
    dht_read d e = dht_read_fresh
      { d with stats := { d.stats with read := d.stats.read + 1 } } e := by
  simp only [dht_read]
  split
  · next hpos => exact absurd hpos h
  · rfl

lemma dht_read_fresh_facts (d : MgosDht) (e : ReadEnv) :
    ((dht_read_fresh d e).dht.stats.read = d.stats.read) ∧
    ((dht_read_fresh d e).dht.stats.read_success_cached = d.stats.read_success_cached) ∧
    ((dht_read_fresh d e).dht.stats.read_success =
      d.stats.read_success + (if (dht_read_fresh d e).ret = true then 1 else 0)) ∧
    ((dht_read_fresh d e).ret = false →
      (dht_read_fresh d e).dht.stats.read_success_usecs = d.stats.read_success_usecs) ∧
    ((dht_read_fresh d e).ret = (dht_read_fresh d e).dht.last_result) ∧
    ((dht_read_fresh d e).intsTrace = [true, false]) ∧
    ((dht_read_fresh d e).dht.type = d.type) := by
  simp only [dht_read_fresh]
  split
  · simp
  · split
    · simp
    · split
      · simp
      · simp

lemma dht_read_ret_eq_last_result (d : MgosDht) (e : ReadEnv) :
    (dht_read d e).ret = (dht_read d e).dht.last_result := by
  by_cases hc : isCacheHit d e
  · rw [dht_read_cached d e hc]
  · rw [dht_read_not_cached d e hc]
    exact (dht_read_fresh_facts _ e).2.2.2.2.1

lemma dht_read_facts (d : MgosDht) (e : ReadEnv) :
    ((dht_read d e).dht.stats.read = d.stats.read + 1) ∧
    ((dht_read d e).dht.stats.read_success_cached =
      d.stats.read_success_cached + (if isCacheHit d e then 1 else 0)) ∧
    ((dht_read d e).dht.stats.read_success =
      d.stats.read_success + (if isFreshSuccess d e then 1 else 0)) ∧
    (¬ isFreshSuccess d e →
      (dht_read d e).dht.stats.read_success_usecs = d.stats.read_success_usecs) ∧
    ((dht_read d e).dht.type = d.type) := by
  by_cases hc : isCacheHit d e
  · have hnf : ¬ isFreshSuccess d e := fun hf => hf.1 hc
    rw [dht_read_cached d e hc]
    simp [hc, hnf]
  · have hfs : isFreshSuccess d e ↔ (dht_read d e).ret = true := by
      unfold isFreshSuccess
      simp [hc]
    obtain ⟨h1, h2, h3, h4, -, -, h7⟩ :=
      dht_read_fresh_facts { d with stats := { d.stats with read := d.stats.read + 1 } } e
    rw [dht_read_not_cached d e hc] at *
    refine ⟨by rw [h1], by rw [h2]; simp [hc], ?_, ?_, h7⟩
    · rw [h3]
      simp only [hfs]
    · intro hnf
      rw [hfs] at hnf
      exact h4 (by simp at hnf; exact hnf)

lemma runReads_stats (es : List ReadEnv) :
    ∀ d : MgosDht,
      (runReads d es).stats.read = d.stats.read + es.length ∧
      (runReads d es).stats.read_success_cached =
        d.stats.read_success_cached + countCacheHits d es ∧
      (runReads d es).stats.read_success =
        d.stats.read_success + countFreshSuccess d es := by
  induction es with
  | nil => intro d; simp [runReads, countCacheHits, countFreshSuccess]
  | cons e es ih =>
    intro d
    obtain ⟨h1, h2, h3, -, -⟩ := dht_read_facts d e
    obtain ⟨i1, i2, i3⟩ := ih (dht_read d e).dht
    refine ⟨?_, ?_, ?_⟩
    · rw [runReads, i1, h1, List.length_cons]
      omega
    · rw [runReads, i2, h2, countCacheHits]
      omega
    · rw [runReads, i3, h3, countFreshSuccess]
      omega

lemma counts_le (es : List ReadEnv) :
    ∀ d : MgosDht, countCacheHits d es + countFreshSuccess d es ≤ es.length := by
  induction es with
  | nil => intro d; simp [countCacheHits, countFreshSuccess]
  | cons e es ih =>
    intro d
    rw [countCacheHits, countFreshSuccess, List.length_cons]
    have hex : ¬ (isCacheHit d e ∧ isFreshSuccess d e) := fun ⟨hc, hf⟩ => hf.1 hc
    have := ih (dht_read d e).dht
    by_cases hc : isCacheHit d e
    · have hnf : ¬ isFreshSuccess d e := fun hf => hex ⟨hc, hf⟩
      simp only [hc, hnf, if_true, if_false]
      omega
    · by_cases hf : isFreshSuccess d e <;> simp only [hc, hf, if_true, if_false] <;> omega

/-! Full characterizations of the fresh-path outcomes of `dht_read`. -/

lemma dht_read_handshake_fail (d : MgosDht) (e : ReadEnv) (hc : ¬ isCacheHit d e)
    (hs : e.waits 0 = 0 ∨ e.waits 1 = 0) :
    dht_read d e =
      { ret := false,
        dht := { pin := d.pin, type := d.type, data := fun _ => 0,
                 last_result := false,
                 stats := { read := d.stats.read + 1,
                            read_success := d.stats.read_success,
                            read_success_cached := d.stats.read_success_cached,
                            read_success_usecs := d.stats.read_success_usecs,
                            last_read_time := e.start } },
        intsTrace := [true, false] } := by
  rw [dht_read_not_cached d e hc]
  simp only [dht_read_fresh]
  rw [if_pos hs]

lemma dht_read_decode_fail (d : MgosDht) (e : ReadEnv) (hc : ¬ isCacheHit d e)
    (hs1 : e.waits 0 ≠ 0) (hs2 : e.waits 1 ≠ 0)
    (hflag : (decodeBytes (fun k => e.waits (2 + k))).2 = false) :
    dht_read d e =
      { ret := false,
        dht := { pin := d.pin, type := d.type,
                 data := (decodeBytes (fun k => e.waits (2 + k))).1,
                 last_result := false,
                 stats := { read := d.stats.read + 1,
                            read_success := d.stats.read_success,
                            read_success_cached := d.stats.read_success_cached,
                            read_success_usecs := d.stats.read_success_usecs,
                            last_read_time := e.start } },
        intsTrace := [true, false] } := by
  rw [dht_read_not_cached d e hc]
  simp only [dht_read_fresh]
  rw [if_neg (by simp [hs1, hs2])]
  rw [show decodeFrom (fun k => e.waits (2 + k)) (fun _ => 0) 0 40 =
    decodeBytes (fun k => e.waits (2 + k)) from rfl]
  rw [if_pos hflag]

lemma dht_read_checksum_ok (d : MgosDht) (e : ReadEnv) (hc : ¬ isCacheHit d e)
    (hs1 : e.waits 0 ≠ 0) (hs2 : e.waits 1 ≠ 0)
    (hflag : (decodeBytes (fun k => e.waits (2 + k))).2 = true)
    (hsum : (decodeBytes (fun k => e.waits (2 + k))).1 4 =
      ((decodeBytes (fun k => e.waits (2 + k))).1 0 +
       (decodeBytes (fun k => e.waits (2 + k))).1 1 +
       (decodeBytes (fun k => e.waits (2 + k))).1 2 +
       (decodeBytes (fun k => e.waits (2 + k))).1 3) % 256) :
    dht_read d e =
      { ret := true,
        dht := { pin := d.pin, type := d.type,
                 data := (decodeBytes (fun k => e.waits (2 + k))).1,
                 last_result := true,
                 stats := { read := d.stats.read + 1,
                            read_success := d.stats.read_success + 1,
                            read_success_cached := d.stats.read_success_cached,
                            read_success_usecs := d.stats.read_success_usecs +
                              1000000 * (e.finish - e.start),
                            last_read_time := e.start } },
        intsTrace := [true, false] } := by
  rw [dht_read_not_cached d e hc]
  simp only [dht_read_fresh]
  rw [if_neg (by simp [hs1, hs2])]
  rw [show decodeFrom (fun k => e.waits (2 + k)) (fun _ => 0) 0 40 =
    decodeBytes (fun k => e.waits (2 + k)) from rfl]
  rw [if_neg (by rw [hflag]; simp)]
  rw [if_pos hsum]

lemma dht_read_checksum_fail (d : MgosDht) (e : ReadEnv) (hc : ¬ isCacheHit d e)
    (hs1 : e.waits 0 ≠ 0) (hs2 : e.waits 1 ≠ 0)
    (hflag : (decodeBytes (fun k => e.waits (2 + k))).2 = true)
    (hsum : (decodeBytes (fun k => e.waits (2 + k))).1 4 ≠
      ((decodeBytes (fun k => e.waits (2 + k))).1 0 +
       (decodeBytes (fun k => e.waits (2 + k))).1 1 +
       (decodeBytes (fun k => e.waits (2 + k))).1 2 +
       (decodeBytes (fun k => e.waits (2 + k))).1 3) % 256) :
    dht_read d e =
      { ret := false,
        dht := { pin := d.pin, type := d.type,
                 data := (decodeBytes (fun k => e.waits (2 + k))).1,
                 last_result := false,
                 stats := { read := d.stats.read + 1,
                            read_success := d.stats.read_success,
                            read_success_cached := d.stats.read_success_cached,
                            read_success_usecs := d.stats.read_success_usecs,
                            last_read_time := e.start } },
        intsTrace := [true, false] } := by
  rw [dht_read_not_cached d e hc]
  simp only [dht_read_fresh]
  rw [if_neg (by simp [hs1, hs2])]
  rw [show decodeFrom (fun k => e.waits (2 + k)) (fun _ => 0) 0 40 =
    decodeBytes (fun k => e.waits (2 + k)) from rfl]
  rw [if_neg (by rw [hflag]; simp)]
  rw [if_neg hsum]

lemma get_temp_state (d : MgosDht) (e : ReadEnv) :
    (mgos_dht_get_temp d e).2 = (dht_read d e).dht := rfl

lemma get_humidity_state (d : MgosDht) (e : ReadEnv) :
    (mgos_dht_get_humidity d e).2 = (dht_read d e).dht := rfl

lemma dht_temp_val_congr (r s : ReadResult) (h1 : r.ret = s.ret)
    (h2 : r.dht.type = s.dht.type) (h3 : ∀ j, r.dht.data j = s.dht.data j) :
    dht_temp_val r = dht_temp_val s := by
  unfold dht_temp_val
  rw [h1, h2, h3 2, h3 3]

lemma dht_humidity_val_congr (r s : ReadResult) (h1 : r.ret = s.ret)
    (h2 : r.dht.type = s.dht.type) (h3 : ∀ j, r.dht.data j = s.dht.data j) :
    dht_humidity_val r = dht_humidity_val s := by
  unfold dht_humidity_val
  rw [h1, h2, h3 0, h3 1]

/-! Concrete fixtures used by witnesses and counterexamples. -/

/-- Wire timing oracle that acks the handshake (80µs responses) and encodes
the given 5 bytes with 50µs low phases and 70µs/30µs high phases. -/
def wiresOf (bytes : Nat → Nat) : Nat → Nat := fun k =>
  if k < 2 then 80
  else
    let i := (k - 2) / 2
    if (k - 2) % 2 = 0 then 50
    else if bytes (i / 8) >>> (7 - i % 8) &&& 1 = 1 then 70 else 30

/-- Bytes of the spec's negative-temperature example, checksum 0x27. -/
def bytesNegT : Nat → Nat := fun j =>
  if j = 0 then 0x02 else if j = 1 then 0x8C else if j = 2 then 0x80
  else if j = 3 then 0x19 else if j = 4 then 0x27 else 0

/-- Bytes of the spec's DHT11 example, checksum 0x4B. -/
def bytes11 : Nat → Nat := fun j =>
  if j = 0 then 0x32 else if j = 1 then 0 else if j = 2 then 0x19
  else if j = 3 then 0 else if j = 4 then 0x4B else 0

/-- Bytes with an invalid checksum (1+2+3+4 = 10 but byte 4 is 99). -/
def bytesBad : Nat → Nat := fun j =>
  if j = 0 then 1 else if j = 1 then 2 else if j = 2 then 3
  else if j = 3 then 4 else if j = 4 then 99 else 0

def dhtD22 : MgosDht := mgos_dht_create 5 DhtType.DHT22

def dhtD11 : MgosDht := mgos_dht_create 5 DhtType.DHT11

/-- Handle holding nonzero cached data from an earlier successful read. -/
def dhtPrior : MgosDht := { mgos_dht_create 5 DhtType.DHT22 with data := fun _ => 50 }

def envNegT : ReadEnv := { start := 100, finish := 100, waits := wiresOf bytesNegT }

def env11 : ReadEnv := { start := 100, finish := 100, waits := wiresOf bytes11 }

def envBad : ReadEnv := { start := 100, finish := 100, waits := wiresOf bytesBad }

/-- Environment whose bus never answers: every `dht_wait` times out. -/
def envHsFail : ReadEnv := { start := 100, finish := 100, waits := fun _ => 0 }

/-- Environment one second after a call at time 100: inside the rate limit. -/
def envSecond : ReadEnv := { start := 101, finish := 101, waits := fun _ => 0 }

/-- Environment with a good handshake but a timeout in capture slot 48. -/
def envZeroSlot : ReadEnv :=
  { start := 100, finish := 100, waits := fun k => if k = 50 then 0 else 60 }

/-- Captured durations where every high phase exceeds its low phase. -/
def cyclesOnes : Nat → Nat := fun k => if k % 2 = 1 then 70 else 50

/-- Captured durations where every low phase is at least its high phase. -/
def cyclesZeros : Nat → Nat := fun k => if k % 2 = 1 then 30 else 50

/-- Two-call run: a fresh successful read, then a rate-limited call. -/
def esW : List ReadEnv := [env11, envSecond]

/-! Claim theorems. -/

/-- C1: for 80 all-nonzero captured durations the decode step succeeds and
produces, for each bit-slot i, bit 1 exactly when `cycles[2i+1] > cycles[2i]`
(that is `bitOf`), accumulated most-significant-first into byte `i/8`; all
high-greater pairs give 0xFF bytes, all low-at-least-high pairs give 0x00. -/
theorem decode_bits_msb_first (cycles : Nat → Nat)
    (hnz : ∀ k, k < 80 → cycles k ≠ 0) :
    (decodeBytes cycles).2 = true ∧
    (∀ j, j < 5 → (decodeBytes cycles).1 j =
      128 * bitOf cycles (8 * j) + 64 * bitOf cycles (8 * j + 1) +
      32 * bitOf cycles (8 * j + 2) + 16 * bitOf cycles (8 * j + 3) +
      8 * bitOf cycles (8 * j + 4) + 4 * bitOf cycles (8 * j + 5) +
      2 * bitOf cycles (8 * j + 6) + bitOf cycles (8 * j + 7)) ∧
    ((∀ i, i < 40 → cycles (2 * i) < cycles (2 * i + 1)) →
      ∀ j, j < 5 → (decodeBytes cycles).1 j = 0xFF) ∧
    ((∀ i, i < 40 → cycles (2 * i + 1) ≤ cycles (2 * i)) →
      ∀ j, j < 5 → (decodeBytes cycles).1 j = 0x00) := by
  refine ⟨decodeBytes_flag cycles hnz,
          fun j hj => decodeBytes_byte cycles hnz j hj, ?_, ?_⟩
  · intro h j hj
    rw [decodeBytes_byte cycles hnz j hj]
    have hb : ∀ m, m < 40 → bitOf cycles m = 1 := fun m hm => by
      unfold bitOf
      rw [if_pos (h m hm)]
    rw [hb (8 * j) (by omega), hb (8 * j + 1) (by omega), hb (8 * j + 2) (by omega),
        hb (8 * j + 3) (by omega), hb (8 * j + 4) (by omega), hb (8 * j + 5) (by omega),
        hb (8 * j + 6) (by omega), hb (8 * j + 7) (by omega)]
  · intro h j hj
    rw [decodeBytes_byte cycles hnz j hj]
    have hb : ∀ m, m < 40 → bitOf cycles m = 0 := fun m hm => by
      unfold bitOf
      rw [if_neg (Nat.not_lt.mpr (h m hm))]
    rw [hb (8 * j) (by omega), hb (8 * j + 1) (by omega), hb (8 * j + 2) (by omega),
        hb (8 * j + 3) (by omega), hb (8 * j + 4) (by omega), hb (8 * j + 5) (by omega),
        hb (8 * j + 6) (by omega), hb (8 * j + 7) (by omega)]

/-- Witness for C1 at two concrete timing sequences. -/
theorem decode_bits_msb_first_witness :
    (∀ k, k < 80 → cyclesOnes k ≠ 0) ∧ (∀ k, k < 80 → cyclesZeros k ≠ 0) ∧
    (decodeBytes cyclesOnes).2 = true ∧
    (decodeBytes cyclesOnes).1 0 = 0xFF ∧ (decodeBytes cyclesOnes).1 4 = 0xFF ∧
    (decodeBytes cyclesZeros).1 0 = 0x00 ∧ (decodeBytes cyclesZeros).1 4 = 0x00 := by
  have h1 := decode_bits_msb_first cyclesOnes (by decide)
  have h0 := decode_bits_msb_first cyclesZeros (by decide)
  exact ⟨by decide, by decide, h1.1,
         h1.2.2.1 (by decide) 0 (by omega), h1.2.2.1 (by decide) 4 (by omega),
         h0.2.2.2 (by decide) 0 (by omega), h0.2.2.2 (by decide) 4 (by omega)⟩

/-- C8: a timeout (zero duration) in any of the 80 capture slots — at any
position — makes the read fail: it returns false, the result flag stays
false, the success counter does not move, and both conversions yield the NAN
sentinel rather than a value decoded from a wrong bit. -/
theorem zero_slot_fails_read (d : MgosDht) (e : ReadEnv) (k : Nat)
    (hc : ¬ isCacheHit d e) (hs1 : e.waits 0 ≠ 0) (hs2 : e.waits 1 ≠ 0)
    (hk : k < 80) (hz : e.waits (2 + k) = 0) :
    (dht_read d e).ret = false ∧
    (dht_read d e).dht.last_result = false ∧
    (dht_read d e).dht.stats.read_success = d.stats.read_success ∧
    (mgos_dht_get_temp d e).1 = none ∧
    (mgos_dht_get_humidity d e).1 = none := by
  have hflag : (decodeBytes (fun j => e.waits (2 + j))).2 = false :=
    decodeFrom_zero_fails (fun j => e.waits (2 + j)) 40 0 (fun _ => 0) k
      (by omega) (by omega) hz
  have heq := dht_read_decode_fail d e hc hs1 hs2 hflag
  refine ⟨by rw [heq], by rw [heq], by rw [heq], ?_, ?_⟩
  · show dht_temp_val (dht_read d e) = none
    rw [heq]
    rfl
  · show dht_humidity_val (dht_read d e) = none
    rw [heq]
    rfl

/-- Witness for C8: a timeout in capture slot 48 (late position) fails the
read on a concrete handle. -/
theorem zero_slot_fails_read_witness :
    (¬ isCacheHit dhtD22 envZeroSlot ∧ envZeroSlot.waits 0 ≠ 0 ∧
      envZeroSlot.waits 1 ≠ 0 ∧ envZeroSlot.waits (2 + 48) = 0) ∧
    (dht_read dhtD22 envZeroSlot).ret = false ∧
    (mgos_dht_get_temp dhtD22 envZeroSlot).1 = none := by
  have h := zero_slot_fails_read dhtD22 envZeroSlot 48 (by decide) (by decide)
    (by decide) (by omega) (by decide)
  exact ⟨⟨by decide, by decide, by decide, by decide⟩, h.1, h.2.2.2.1⟩

/-- C2: a fully captured and decoded read succeeds only if byte 4 equals the
low 8 bits of the sum of bytes 0-3; when that equality fails the read fails,
the result flag stays false, and neither the success counter nor the
success-time counter moves. -/
theorem checksum_gates_success (d : MgosDht) (e : ReadEnv) (hc : ¬ isCacheHit d e) :
    ((dht_read d e).ret = true →
      (dht_read d e).dht.data 4 =
        ((dht_read d e).dht.data 0 + (dht_read d e).dht.data 1 +
         (dht_read d e).dht.data 2 + (dht_read d e).dht.data 3) % 256) ∧
    (e.waits 0 ≠ 0 → e.waits 1 ≠ 0 →
      (decodeBytes (fun k => e.waits (2 + k))).2 = true →
      (decodeBytes (fun k => e.waits (2 + k))).1 4 ≠
        ((decodeBytes (fun k => e.waits (2 + k))).1 0 +
         (decodeBytes (fun k => e.waits (2 + k))).1 1 +
         (decodeBytes (fun k => e.waits (2 + k))).1 2 +
         (decodeBytes (fun k => e.waits (2 + k))).1 3) % 256 →
      (dht_read d e).ret = false ∧
      (dht_read d e).dht.last_result = false ∧
      (dht_read d e).dht.stats.read_success = d.stats.read_success ∧
      (dht_read d e).dht.stats.read_success_usecs = d.stats.read_success_usecs) := by
  constructor
  · intro hret
    by_cases h1 : e.waits 0 = 0 ∨ e.waits 1 = 0
    · rw [dht_read_handshake_fail d e hc h1] at hret
      exact absurd hret (by simp)
    · push_neg at h1
      by_cases h2 : (decodeBytes (fun k => e.waits (2 + k))).2 = false
      · rw [dht_read_decode_fail d e hc h1.1 h1.2 h2] at hret
        exact absurd hret (by simp)
      · have hflag : (decodeBytes (fun k => e.waits (2 + k))).2 = true := by
          simpa using h2
        by_cases h3 : (decodeBytes (fun k => e.waits (2 + k))).1 4 =
            ((decodeBytes (fun k => e.waits (2 + k))).1 0 +
             (decodeBytes (fun k => e.waits (2 + k))).1 1 +
             (decodeBytes (fun k => e.waits (2 + k))).1 2 +
             (decodeBytes (fun k => e.waits (2 + k))).1 3) % 256
        · rw [dht_read_checksum_ok d e hc h1.1 h1.2 hflag h3]
          exact h3
        · rw [dht_read_checksum_fail d e hc h1.1 h1.2 hflag h3] at hret
          exact absurd hret (by simp)
  · intro hs1 hs2 hflag hsum
    rw [dht_read_checksum_fail d e hc hs1 hs2 hflag hsum]
    exact ⟨rfl, rfl, rfl, rfl⟩

/-- Witness for C2: a decode of bytes 1,2,3,4 with checksum byte 99 fails on
a concrete handle, leaving the success counters unchanged. -/
theorem checksum_gates_success_witness :
    (¬ isCacheHit dhtD22 envBad ∧
     (decodeBytes (fun k => envBad.waits (2 + k))).2 = true ∧
     (decodeBytes (fun k => envBad.waits (2 + k))).1 4 = 99 ∧
     ((decodeBytes (fun k => envBad.waits (2 + k))).1 0 +
      (decodeBytes (fun k => envBad.waits (2 + k))).1 1 +
      (decodeBytes (fun k => envBad.waits (2 + k))).1 2 +
      (decodeBytes (fun k => envBad.waits (2 + k))).1 3) % 256 = 10) ∧
    (dht_read dhtD22 envBad).ret = false ∧
    (dht_read dhtD22 envBad).dht.stats.read_success = 0 := by
  have h := (checksum_gates_success dhtD22 envBad (by decide)).2
    (by decide) (by decide) (by decide) (by decide)
  exact ⟨⟨by decide, by decide, by decide, by decide⟩, h.1, h.2.2.1⟩

/-- C3 counterexample: the claim says a handshake failure leaves the prior
cached 5-byte buffer untouched, but `dht_read` zeroes the buffer (`memset`)
before the handshake, so prior nonzero data is lost. -/
theorem handshake_fail_prior_data_cex :
    ¬ isCacheHit dhtPrior envHsFail ∧
    envHsFail.waits 0 = 0 ∧
    dhtPrior.data 0 = 50 ∧
    (dht_read dhtPrior envHsFail).ret = false ∧
    (dht_read dhtPrior envHsFail).dht.data 0 = 0 ∧
    (dht_read dhtPrior envHsFail).dht.data 0 ≠ dhtPrior.data 0 := by
  decide

/-- C3 (amended): on a fresh read whose acknowledgment handshake fails, the
read returns failure, the result flag is set false, and the 5-byte data
buffer is cleared to zeros (the prior cached contents are overwritten). -/
theorem handshake_fail_clears_state (d : MgosDht) (e : ReadEnv)
    (hc : ¬ isCacheHit d e) (hs : e.waits 0 = 0 ∨ e.waits 1 = 0) :
    (dht_read d e).ret = false ∧
    (dht_read d e).dht.last_result = false ∧
    (∀ j, (dht_read d e).dht.data j = 0) := by
  rw [dht_read_handshake_fail d e hc hs]
  exact ⟨rfl, rfl, fun j => rfl⟩

/-- Witness for C3 (amended) at a concrete handle with prior data. -/
theorem handshake_fail_clears_state_witness :
    (¬ isCacheHit dhtPrior envHsFail ∧ envHsFail.waits 0 = 0) ∧
    (dht_read dhtPrior envHsFail).ret = false ∧
    (dht_read dhtPrior envHsFail).dht.data 3 = 0 := by
  have h := handshake_fail_clears_state dhtPrior envHsFail (by decide) (Or.inl rfl)
  exact ⟨⟨by decide, rfl⟩, h.1, h.2.2 3⟩

/-- C4 counterexample: on the rate-limited second call the attempt counter
`stats.read` also increments (it is bumped before the rate-limit check), so
the claim that only the cache-hit counter changes is false. -/
theorem cached_second_call_cex :
    isCacheHit (dht_read dhtD22 envHsFail).dht envSecond ∧
    (dht_read (dht_read dhtD22 envHsFail).dht envSecond).dht.stats.read_success_cached
      = (dht_read dhtD22 envHsFail).dht.stats.read_success_cached + 1 ∧
    (dht_read (dht_read dhtD22 envHsFail).dht envSecond).dht.stats.read ≠
      (dht_read dhtD22 envHsFail).dht.stats.read := by
  decide

/-- C4 (amended): a second read within the minimum interval skips the
physical handshake (empty interrupt trace), returns a bit-identical result —
both for the boolean read and for the temperature/humidity conversions — and
increments exactly the attempt counter and the cache-hit counter, leaving
every other field (success counters, success-time, last-read time, data
buffer, result flag) unchanged. -/
theorem cached_second_call (d : MgosDht) (e1 e2 : ReadEnv)
    (h : isCacheHit (dht_read d e1).dht e2) :
    (dht_read (dht_read d e1).dht e2).ret = (dht_read d e1).ret ∧
    (mgos_dht_get_temp (mgos_dht_get_temp d e1).2 e2).1 = (mgos_dht_get_temp d e1).1 ∧
    (mgos_dht_get_humidity (mgos_dht_get_humidity d e1).2 e2).1 =
      (mgos_dht_get_humidity d e1).1 ∧
    (dht_read (dht_read d e1).dht e2).intsTrace = [] ∧
    (dht_read (dht_read d e1).dht e2).dht.stats.read =
      (dht_read d e1).dht.stats.read + 1 ∧
    (dht_read (dht_read d e1).dht e2).dht.stats.read_success_cached =
      (dht_read d e1).dht.stats.read_success_cached + 1 ∧
    (dht_read (dht_read d e1).dht e2).dht.stats.read_success =
      (dht_read d e1).dht.stats.read_success ∧
    (dht_read (dht_read d e1).dht e2).dht.stats.read_success_usecs =
      (dht_read d e1).dht.stats.read_success_usecs ∧
    (dht_read (dht_read d e1).dht e2).dht.stats.last_read_time =
      (dht_read d e1).dht.stats.last_read_time ∧
    (∀ j, (dht_read (dht_read d e1).dht e2).dht.data j = (dht_read d e1).dht.data j) ∧
    (dht_read (dht_read d e1).dht e2).dht.last_result =
      (dht_read d e1).dht.last_result := by
  have heq := dht_read_cached (dht_read d e1).dht e2 h
  refine ⟨?_, ?_, ?_, by rw [heq], by rw [heq], by rw [heq], by rw [heq],
          by rw [heq], by rw [heq], fun j => by rw [heq], by rw [heq]⟩
  · rw [heq, dht_read_ret_eq_last_result d e1]
  · show dht_temp_val (dht_read (dht_read d e1).dht e2) = dht_temp_val (dht_read d e1)
    refine dht_temp_val_congr _ _ ?_ ?_ ?_
    · rw [heq, dht_read_ret_eq_last_result d e1]
    · rw [heq]
    · intro j
      rw [heq]
  · show dht_humidity_val (dht_read (dht_read d e1).dht e2) =
      dht_humidity_val (dht_read d e1)
    refine dht_humidity_val_congr _ _ ?_ ?_ ?_
    · rw [heq, dht_read_ret_eq_last_result d e1]
    · rw [heq]
    · intro j
      rw [heq]

/-- Witness for C4 (amended): a fresh failed read at time 100 followed by a
call at time 101. -/
theorem cached_second_call_witness :
    isCacheHit (dht_read dhtD22 envHsFail).dht envSecond ∧
    ((dht_read (dht_read dhtD22 envHsFail).dht envSecond).ret =
      (dht_read dhtD22 envHsFail).ret ∧
     (dht_read (dht_read dhtD22 envHsFail).dht envSecond).intsTrace = []) := by
  have h := cached_second_call dhtD22 envHsFail envSecond (by decide)
  exact ⟨by decide, h.1, h.2.2.2.1⟩

/-- C5: starting from a freshly created handle, after the calls in `es` the
attempt counter equals the number of calls, the cache-hit counter equals the
number of rate-limited calls, the success counter equals the number of fresh
validated successes and is at most calls minus cache hits; per call, the
attempt counter always increments, the cache-hit counter increments exactly
on rate-limited calls, and the success / success-time counters move only on
a fresh validated success. -/
theorem stats_counts (pin : Int) (ty : DhtType) (es : List ReadEnv) :
    (runReads (mgos_dht_create pin ty) es).stats.read = es.length ∧
    (runReads (mgos_dht_create pin ty) es).stats.read_success_cached =
      countCacheHits (mgos_dht_create pin ty) es ∧
    (runReads (mgos_dht_create pin ty) es).stats.read_success =
      countFreshSuccess (mgos_dht_create pin ty) es ∧
    countFreshSuccess (mgos_dht_create pin ty) es ≤
      es.length - countCacheHits (mgos_dht_create pin ty) es ∧
    (∀ (d : MgosDht) (e : ReadEnv),
      (dht_read d e).dht.stats.read = d.stats.read + 1) ∧
    (∀ (d : MgosDht) (e : ReadEnv),
      (dht_read d e).dht.stats.read_success_cached =
        d.stats.read_success_cached + (if isCacheHit d e then 1 else 0)) ∧
    (∀ (d : MgosDht) (e : ReadEnv),
      (dht_read d e).dht.stats.read_success =
        d.stats.read_success + (if isFreshSuccess d e then 1 else 0)) ∧
    (∀ (d : MgosDht) (e : ReadEnv), ¬ isFreshSuccess d e →
      (dht_read d e).dht.stats.read_success_usecs = d.stats.read_success_usecs) := by
  obtain ⟨h1, h2, h3⟩ := runReads_stats es (mgos_dht_create pin ty)
  have hle := counts_le es (mgos_dht_create pin ty)
  refine ⟨?_, ?_, ?_, by omega, ?_, ?_, ?_, ?_⟩
  · rw [h1]
    simp [mgos_dht_create]
  · rw [h2]
    simp [mgos_dht_create]
  · rw [h3]
    simp [mgos_dht_create]
  · exact fun d' e => (dht_read_facts d' e).1
  · exact fun d' e => (dht_read_facts d' e).2.1
  · exact fun d' e => (dht_read_facts d' e).2.2.1
  · exact fun d' e => (dht_read_facts d' e).2.2.2.1

/-- Witness for C5: a fresh success then a cache hit give counts 2 / 1 / 1. -/
theorem stats_counts_witness :
    countCacheHits (mgos_dht_create 5 DhtType.DHT11) esW = 1 ∧
    countFreshSuccess (mgos_dht_create 5 DhtType.DHT11) esW = 1 ∧
    (runReads (mgos_dht_create 5 DhtType.DHT11) esW).stats.read = 2 ∧
    (runReads (mgos_dht_create 5 DhtType.DHT11) esW).stats.read_success_cached = 1 ∧
    (runReads (mgos_dht_create 5 DhtType.DHT11) esW).stats.read_success = 1 := by
  have h := stats_counts 5 DhtType.DHT11 esW
  refine ⟨by decide, by decide, ?_, ?_, ?_⟩
  · rw [h.1]
    rfl
  · rw [h.2.1]
    decide
  · rw [h.2.2.1]
    decide

/-- C9: every execution of `dht_read` leaves the interrupt-disable depth at
zero when it returns: the trace of interrupt operations is balanced on every
path, and every fresh execution (which enters the critical section) performs
exactly one disable followed by one enable. -/
theorem ints_reenabled (d : MgosDht) (e : ReadEnv) :
    intsDepth ((dht_read d e).intsTrace) = 0 ∧
    ((dht_read d e).intsTrace = [] ∨ (dht_read d e).intsTrace = [true, false]) ∧
    (¬ isCacheHit d e → (dht_read d e).intsTrace = [true, false]) := by
  by_cases hc : isCacheHit d e
  · rw [dht_read_cached d e hc]
    exact ⟨rfl, Or.inl rfl, fun hn => absurd hc hn⟩
  · rw [dht_read_not_cached d e hc]
    have ht := (dht_read_fresh_facts
      { d with stats := { d.stats with read := d.stats.read + 1 } } e).2.2.2.2.2.1
    rw [ht]
    exact ⟨rfl, Or.inr rfl, fun _ => rfl⟩

/-- Witness for C9 on a cached and a fresh concrete execution. -/
theorem ints_reenabled_witness :
    intsDepth ((dht_read dhtD22 envHsFail).intsTrace) = 0 ∧
    (dht_read dhtD22 envHsFail).intsTrace = [true, false] ∧
    intsDepth ((dht_read (dht_read dhtD22 envHsFail).dht envSecond).intsTrace) = 0 := by
  have h1 := ints_reenabled dhtD22 envHsFail
  have h2 := ints_reenabled (dht_read dhtD22 envHsFail).dht envSecond
  exact ⟨h1.1, h1.2.2 (by decide), h2.1⟩

/-- C10: `dht_wait` returns at most its timeout; it returns 0 when the pin is
already at the target level at entry and when the timeout elapses without the
pin reaching the level; and a zero result from the first handshake wait makes
the fresh read fail. -/
theorem wait_for_level (read : Nat → Bool) (lvl : Bool) (usecs : Nat) :
    dht_wait read lvl usecs ≤ usecs ∧
    (read 0 = lvl → dht_wait read lvl usecs = 0) ∧
    ((∀ s, s ≤ usecs → read s ≠ lvl) → dht_wait read lvl usecs = 0) ∧
    (∀ (d : MgosDht) (e : ReadEnv), ¬ isCacheHit d e → e.waits 0 = 0 →
      (dht_read d e).ret = false) := by
  refine ⟨dht_wait_le read lvl usecs, dht_wait_entry read lvl usecs,
          dht_wait_timeout read lvl usecs, fun d e hc h0 => ?_⟩
  rw [dht_read_handshake_fail d e hc (Or.inl h0)]

/-- Witness for C10: a pin stuck at the wrong level times out to 0, a pin
already at the level returns 0, and the zero handshake wait fails a read. -/
theorem wait_for_level_witness :
    dht_wait (fun _ => false) true 90 = 0 ∧
    dht_wait (fun _ => true) true 90 = 0 ∧
    dht_wait (fun _ => false) true 90 ≤ 90 ∧
    (dht_read dhtD22 envHsFail).ret = false := by
  have h := wait_for_level (fun _ => false) true 90
  have h2 := wait_for_level (fun _ => true) true 90
  exact ⟨h.2.2.1 (fun s _ hs => by exact absurd hs (by decide)),
         h2.2.1 rfl, h.1, h.2.2.2 dhtD22 envHsFail (by decide) rfl⟩

/-- C6: on a successful read the temperature is byte 2 for the DHT11 variant,
and otherwise ((byte2 & 0x7F)·256 + byte3)·0.1 negated exactly when the top
bit of byte 2 is set; in particular bytes 0x02 0x8C 0x80 0x19 (valid checksum
0x27) on a higher-precision variant give -2.5. -/
theorem temp_conversion (d : MgosDht) (e : ReadEnv)
    (h : (dht_read d e).ret = true) :
    (d.type = DhtType.DHT11 →
      (mgos_dht_get_temp d e).1 = some (((dht_read d e).dht.data 2 : ℚ))) ∧
    (d.type ≠ DhtType.DHT11 →
      (mgos_dht_get_temp d e).1 = some (
        (if (dht_read d e).dht.data 2 &&& 0x80 ≠ 0 then (-1 : ℚ) else 1) *
        ((((dht_read d e).dht.data 2 &&& 0x7F) * 256 +
          (dht_read d e).dht.data 3 : Nat) : ℚ) / 10)) ∧
    (mgos_dht_get_temp dhtD22 envNegT).1 = some (-5 / 2) := by
  have hty : (dht_read d e).dht.type = d.type := (dht_read_facts d e).2.2.2.2
  refine ⟨?_, ?_, ?_⟩
  · intro h11
    show dht_temp_val (dht_read d e) = some (((dht_read d e).dht.data 2 : ℚ))
    simp [dht_temp_val, h, hty, h11]
  · intro h11
    show dht_temp_val (dht_read d e) = _
    simp only [dht_temp_val, h, hty, if_true]
    rw [if_neg h11]
    by_cases hsign : (dht_read d e).dht.data 2 &&& 0x80 ≠ 0
    · rw [if_pos hsign, if_pos hsign]
      push_cast
      ring_nf
    · rw [if_neg hsign, if_neg hsign]
      push_cast
      ring_nf
  · have hret : (dht_read dhtD22 envNegT).ret = true := by decide
    have h2 : (dht_read dhtD22 envNegT).dht.data 2 = 128 := by decide
    have h3 : (dht_read dhtD22 envNegT).dht.data 3 = 25 := by decide
    have hty2 : (dht_read dhtD22 envNegT).dht.type = DhtType.DHT22 := by decide
    show dht_temp_val (dht_read dhtD22 envNegT) = some (-5 / 2)
    simp only [dht_temp_val, hret, hty2, h2, h3]
    rw [if_neg (by decide : ¬ (DhtType.DHT22 = DhtType.DHT11))]
    norm_num [show (128 &&& 127 : Nat) = 0 from by decide]

/-- Witness for C6: the spec's negative-temperature example evaluates. -/
theorem temp_conversion_witness :
    (dht_read dhtD22 envNegT).ret = true ∧
    (mgos_dht_get_temp dhtD22 envNegT).1 = some (-5 / 2) := by
  have h := temp_conversion dhtD22 envNegT (by decide)
  exact ⟨by decide, h.2.2⟩

/-- C7: on a successful read the humidity is byte 0 for the DHT11 variant and
(byte0·256 + byte1)·0.1 otherwise; in particular DHT11 bytes 0x32 0x00 0x19
0x00 (valid checksum 0x4B) give humidity 50 and temperature 25. -/
theorem humidity_conversion (d : MgosDht) (e : ReadEnv)
    (h : (dht_read d e).ret = true) :
    (d.type = DhtType.DHT11 →
      (mgos_dht_get_humidity d e).1 = some (((dht_read d e).dht.data 0 : ℚ))) ∧
    (d.type ≠ DhtType.DHT11 →
      (mgos_dht_get_humidity d e).1 = some (
        (((dht_read d e).dht.data 0 * 256 + (dht_read d e).dht.data 1 : Nat) : ℚ)
        / 10)) ∧
    (mgos_dht_get_humidity dhtD11 env11).1 = some 50 ∧
    (mgos_dht_get_temp dhtD11 env11).1 = some 25 := by
  have hty : (dht_read d e).dht.type = d.type := (dht_read_facts d e).2.2.2.2
  refine ⟨?_, ?_, ?_, ?_⟩
  · intro h11
    show dht_humidity_val (dht_read d e) = some (((dht_read d e).dht.data 0 : ℚ))
    simp [dht_humidity_val, h, hty, h11]
  · intro h11
    show dht_humidity_val (dht_read d e) = _
    simp only [dht_humidity_val, h, hty, if_true]
    rw [if_neg h11]
    push_cast
    ring_nf
  · have hret : (dht_read dhtD11 env11).ret = true := by decide
    have h0 : (dht_read dhtD11 env11).dht.data 0 = 50 := by decide
    have hty1 : (dht_read dhtD11 env11).dht.type = DhtType.DHT11 := by decide
    show dht_humidity_val (dht_read dhtD11 env11) = some 50
    simp [dht_humidity_val, hret, hty1, h0]
  · have hret : (dht_read dhtD11 env11).ret = true := by decide
    have h2 : (dht_read dhtD11 env11).dht.data 2 = 25 := by decide
    have hty1 : (dht_read dhtD11 env11).dht.type = DhtType.DHT11 := by decide
    show dht_temp_val (dht_read dhtD11 env11) = some 25
    simp [dht_temp_val, hret, hty1, h2]

/-- Witness for C7: the spec's DHT11 example evaluates. -/
theorem humidity_conversion_witness :
    (dht_read dhtD11 env11).ret = true ∧
    (mgos_dht_get_humidity dhtD11 env11).1 = some 50 ∧
    (mgos_dht_get_temp dhtD11 env11).1 = some 25 := by
  have h := humidity_conversion dhtD11 env11 (by decide)
  exact ⟨by decide, h.2.2.1, h.2.2.2⟩
